import Mathlib

/-!
Shallow embedding of `blinkt_pi5.py`, the APA102 LED driver of the
repository, together with proofs about the claims on its pixel-buffer
API, wire encoding and GPIO lifecycle.

The Python module keeps a global list `pixels = [[0, 0, 0, BRIGHTNESS]] * NUM_PIXELS`:
all eight buffer slots initially reference ONE shared Python list.  Some
operations mutate pixel lists in place (`set_brightness`, `clear`) and one
rebinds a slot to a fresh list (`set_pixel`), so the embedding models the
buffer with an explicit heap: `slots` holds addresses, `heap` maps an
address to the four-field pixel record it denotes, and `nextAddr` is the
next fresh address used when `set_pixel` allocates a new list.
-/

namespace Blinkt

/-- Module constant `DAT = 23` (data pin). -/
def DAT : ℕ := 23

/-- Module constant `CLK = 24` (clock pin). -/
def CLK : ℕ := 24

/-- Module constant `NUM_PIXELS = 8`. -/
def NUM_PIXELS : ℕ := 8

/-- Module constant `BRIGHTNESS = 7` (default stored 5-bit brightness). -/
def BRIGHTNESS : ℕ := 7

/-- The kinds of Python exception the pixel-buffer API raises. -/
inductive PyError where
  | indexError
  | valueError
deriving DecidableEq

/-- One Python pixel list `[r, g, b, brightness]` (always exactly four
integer entries in this program). -/
structure Pixel where
  r : ℕ
  g : ℕ
  b : ℕ
  brightness : ℕ
deriving DecidableEq

/-- The module-level buffer state: `slots` are the addresses the eight
entries of the Python list `pixels` reference, `heap` gives the pixel
list stored at each address, `nextAddr` is the next fresh address. -/
structure BufState where
  slots : List ℕ
  heap : ℕ → Pixel
  nextAddr : ℕ

/-- Python `int()` applied to a (rational-modelled) float: truncation
toward zero. -/
def pyint (q : ℚ) : ℤ :=
  if 0 ≤ q then q.floor else -((-q).floor)

/-- Python `round()` to an integer: round half to even (banker's
rounding), as CPython does. -/
def pyround (x : ℚ) : ℤ :=
  if x - x.floor < 1/2 then x.floor
  else if 1/2 < x - x.floor then x.floor + 1
  else if 2 ∣ x.floor then x.floor else x.floor + 1

/-- `int(r) & 0xff` on an arbitrary Python integer `r`: Python's `&` on
possibly negative integers agrees with the nonnegative remainder mod 256. -/
def pymask8 (r : ℤ) : ℕ :=
  (r % 256).toNat

/-- The brightness quantization `int(31.0 * brightness) & 0b11111`
shared by `set_pixel` and `set_brightness`. -/
def quantize (brightness : ℚ) : ℕ :=
  ((pyint (31 * brightness)) % 32).toNat

/-- Python `round(x, 3)`: round to the nearest multiple of `1/1000`
(no tie ever occurs at the values this program rounds, so the
half-even tie-break cannot be observed). -/
def round3 (x : ℚ) : ℚ :=
  (pyround (1000 * x) : ℚ) / 1000

/-- Python list indexing on the 8-element list `pixels`: indices in
`[0, 8)` address directly, indices in `[-8, 0)` wrap to `8 + x`, and
anything else raises `IndexError` (`none` here). -/
def resolveIdx (x : ℤ) : Option ℕ :=
  if 0 ≤ x ∧ x < (NUM_PIXELS : ℤ) then some x.toNat
  else if -(NUM_PIXELS : ℤ) ≤ x ∧ x < 0 then some (x + NUM_PIXELS).toNat
  else none

/-- `pixels = [[0, 0, 0, BRIGHTNESS]] * NUM_PIXELS`: all eight slots
reference the single list at address 0. -/
def initState : BufState :=
  { slots := List.replicate NUM_PIXELS 0
    heap := fun _ => ⟨0, 0, 0, BRIGHTNESS⟩
    nextAddr := 1 }

/-- The pixel list a slot currently references. -/
def slotPixel (st : BufState) (i : ℕ) : Pixel :=
  st.heap (st.slots.getD i 0)

/--
```
def set_pixel(x, r, g, b, brightness=None):
    if brightness is None:
        brightness = pixels[x][3]
    else:
        brightness = int(31.0 * brightness) & 0b11111
    pixels[x] = [int(r) & 0xff, int(g) & 0xff, int(b) & 0xff, brightness]
```
The assignment rebinds slot `x` to a fresh list (a fresh address), it
does not mutate the list the slot referenced before.  An out-of-range
`x` raises `IndexError` (at the read when `brightness` is `None`,
at the assignment otherwise); either way no slot or list has been
modified when the exception leaves the function.
-/
def set_pixel (st : BufState) (x : ℤ) (r g b : ℤ) (brightness : Option ℚ) :
    Except PyError BufState :=
  match resolveIdx x with
  | none => .error .indexError
  | some i =>
    let q : ℕ :=
      match brightness with
      | none => (slotPixel st i).brightness
      | some f => quantize f
    .ok { slots := st.slots.set i st.nextAddr
          heap := Function.update st.heap st.nextAddr
            ⟨pymask8 r, pymask8 g, pymask8 b, q⟩
          nextAddr := st.nextAddr + 1 }

/--
```
def get_pixel(x):
    r, g, b, brightness = pixels[x]
    brightness /= 31.0
    return r, g, b, round(brightness, 3)
```
-/
def get_pixel (st : BufState) (x : ℤ) : Except PyError (ℕ × ℕ × ℕ × ℚ) :=
  match resolveIdx x with
  | none => .error .indexError
  | some i =>
    let p := slotPixel st i
    .ok (p.r, p.g, p.b, round3 ((p.brightness : ℚ) / 31))

/--
```
def set_brightness(brightness):
    if brightness < 0 or brightness > 1:
        raise ValueError(...)
    for x in range(NUM_PIXELS):
        pixels[x][3] = int(31.0 * brightness) & 0b11111
```
The loop mutates each referenced list in place (index 3 only).
-/
def set_brightness (st : BufState) (brightness : ℚ) : Except PyError BufState :=
  if brightness < 0 ∨ brightness > 1 then .error .valueError
  else .ok { st with
    heap := (List.range NUM_PIXELS).foldl
      (fun h x =>
        Function.update h (st.slots.getD x 0)
          { h (st.slots.getD x 0) with brightness := quantize brightness })
      st.heap }

/--
```
def clear():
    for x in range(NUM_PIXELS):
        pixels[x][0:3] = [0, 0, 0]
```
The slice assignment mutates each referenced list in place, leaving
index 3 (the stored brightness) alone.
-/
def clear (st : BufState) : BufState :=
  { st with
    heap := (List.range NUM_PIXELS).foldl
      (fun h x =>
        Function.update h (st.slots.getD x 0)
          { h (st.slots.getD x 0) with r := 0, g := 0, b := 0 })
      st.heap }

/-- Well-formedness of a buffer state: eight slots, every referenced
address already allocated (strictly below `nextAddr`). -/
def WF (st : BufState) : Prop :=
  st.slots.length = NUM_PIXELS ∧ ∀ a ∈ st.slots, a < st.nextAddr

instance (st : BufState) : Decidable (WF st) := by
  unfold WF; infer_instance

/-! ### Wire protocol

`show` drives the two GPIO lines directly; the embedding records the
sequence of electrical operations as a trace of events. -/

/-- One observable operation on the two output lines: a write to the
data pin, a write to the clock pin, or the fixed `time.sleep(0.0000005)`
half-cycle delay. -/
inductive WireEvent where
  | dat (level : Bool)
  | clk (level : Bool)
  | sleep
deriving DecidableEq

/-- The body of `_write_byte`'s loop, `k` iterations remaining:
```
for x in range(8):
    lgpio.gpio_write(_handle, DAT, 1 if byte & 0b10000000 else 0)
    lgpio.gpio_write(_handle, CLK, 1)
    time.sleep(0.0000005)
    byte <<= 1
    lgpio.gpio_write(_handle, CLK, 0)
    time.sleep(0.0000005)
```
-/
def writeByteAux : ℕ → ℕ → List WireEvent
  | 0, _ => []
  | k + 1, byte =>
    .dat (byte &&& 128 != 0) :: .clk true :: .sleep :: .clk false :: .sleep ::
      writeByteAux k (byte <<< 1)

/-- `_write_byte(byte)`: emit the eight bits of `byte`, most significant
first, each bit clocked by a high-then-low clock transition with the
half-cycle delay after each edge. -/
def _write_byte (byte : ℕ) : List WireEvent :=
  writeByteAux 8 byte

/-- `n` bare clock pulses (`CLK` high, delay, `CLK` low, delay), the
loop body shared by `_sof` and `_eof`. -/
def pulseTrain : ℕ → List WireEvent
  | 0 => []
  | n + 1 => .clk true :: .sleep :: .clk false :: .sleep :: pulseTrain n

/-- `_sof()`: data low, then 32 clock pulses. -/
def _sof : List WireEvent :=
  .dat false :: pulseTrain 32

/-- `_eof()`: data low, then 36 clock pulses (a fixed count tuned for a
specific LED die variant, per the source comment). -/
def _eof : List WireEvent :=
  .dat false :: pulseTrain 36

/-- The four bytes `show` emits for one pixel:
```
r, g, b, brightness = pixel
_write_byte(0b11100000 | brightness)
_write_byte(b)
_write_byte(g)
_write_byte(r)
```
-/
def pixelBytes (p : Pixel) : List ℕ :=
  [224 ||| p.brightness, p.b, p.g, p.r]

/-- The wire events `show`'s per-pixel loop body produces for one pixel. -/
def pixelEvents (p : Pixel) : List WireEvent :=
  ((pixelBytes p).map _write_byte).flatten

/-- The full transmission `show` performs once the GPIO lines are set
up: `_sof()`, the four bytes of each pixel in buffer order, `_eof()`. -/
def transmit (ps : List Pixel) : List WireEvent :=
  _sof ++ (ps.map pixelEvents).flatten ++ _eof

/-- The clock-line writes of a trace, in order. -/
def clkWrites (es : List WireEvent) : List Bool :=
  es.filterMap fun e =>
    match e with
    | .clk b => some b
    | _ => none

/-- The data-line writes of a trace, in order. -/
def datWrites (es : List WireEvent) : List Bool :=
  es.filterMap fun e =>
    match e with
    | .dat b => some b
    | _ => none

/-- The number of `time.sleep` delays in a trace. -/
def sleepCount (es : List WireEvent) : ℕ :=
  es.countP fun e =>
    match e with
    | .sleep => true
    | _ => false

/-- The eight bits of a byte value, most significant bit first. -/
def msbBits (byte : ℕ) : List Bool :=
  (List.range 8).map fun k => byte.testBit (7 - k)

/-- The clock-line writes of `n` high-then-low pulses. -/
def pulsePattern (n : ℕ) : List Bool :=
  (List.replicate n [true, false]).flatten

/-- The four wire bytes currently stored for slot `i`. -/
def wireBytes (st : BufState) (i : ℕ) : List ℕ :=
  pixelBytes (slotPixel st i)

/-! ### GPIO lifecycle

The `lgpio` library is external; a claim attempt on a pin either
succeeds or raises `lgpio.error`, which the embedding models by an
oracle giving the outcome of each successive claim attempt on that pin. -/

/-- The externally visible GPIO calls `show`'s setup path makes. -/
inductive GpioAction where
  | openChip
  | claimOutput (pin : ℕ)
  | free (pin : ℕ)
  | registerAtexit
deriving DecidableEq

/-- One pin's claim sequence in `show`:
```
try:
    lgpio.gpio_claim_output(_handle, PIN)
except lgpio.error:
    lgpio.gpio_free(_handle, PIN)
    lgpio.gpio_claim_output(_handle, PIN)
```
`oracle n` is the outcome of the `n`-th claim attempt on this pin.  The
second claim is not guarded, so its failure propagates to the caller. -/
def claimWithRecovery (oracle : ℕ → Bool) (pin : ℕ) :
    Except Unit (List GpioAction) :=
  if oracle 0 then .ok [.claimOutput pin]
  else if oracle 1 then .ok [.claimOutput pin, .free pin, .claimOutput pin]
  else .error ()

/-- The one-time setup block of `show`: open the resolved gpiochip,
claim `DAT` then `CLK` (each with the single forced-release retry), then
register the `atexit` hook. -/
def initGpio (oDat oClk : ℕ → Bool) : Except Unit (List GpioAction) :=
  match claimWithRecovery oDat DAT with
  | .error e => .error e
  | .ok a =>
    match claimWithRecovery oClk CLK with
    | .error e => .error e
    | .ok b => .ok (.openChip :: (a ++ b) ++ [.registerAtexit])

/-- The observable outcome of one `show()` call. -/
structure ShowOutcome where
  gpio_setup : Bool
  initActions : List GpioAction
  wire : List WireEvent
deriving DecidableEq

/--
```
def show():
    global _gpio_setup, _handle
    if not _gpio_setup:
        ...open chip, claim DAT, claim CLK, atexit.register(_exit)...
        _gpio_setup = True
    _sof()
    for pixel in pixels: ...
    _eof()
```
Takes the current `_gpio_setup` flag and the pixel lists in buffer
order; returns the new flag, the GPIO setup calls made (none when the
flag was already set), and the wire trace. -/
def show' (oDat oClk : ℕ → Bool) (gpio_setup : Bool) (ps : List Pixel) :
    Except Unit ShowOutcome :=
  if gpio_setup then .ok ⟨true, [], transmit ps⟩
  else
    match initGpio oDat oClk with
    | .error e => .error e
    | .ok acts => .ok ⟨true, acts, transmit ps⟩

/-- The pixel lists of the buffer in order, as `show`'s loop reads them. -/
def bufferPixels (st : BufState) : List Pixel :=
  (List.range NUM_PIXELS).map fun x => st.heap (st.slots.getD x 0)

/-- Modelled from the spec (claim C1's words): the quantization the
claim asserts, `round(31 * br)` masked to 5 bits, with Python's
`round` — to be compared against the code's `quantize`. -/
def quantizeSpecC1 (brightness : ℚ) : ℕ :=
  ((pyround (31 * brightness)) % 32).toNat

/-! Evaluation lemmas for the rational-valued helpers (kernel reduction
is not available on `ℚ`, so concrete values are established through the
floor characterization). -/

theorem rat_floor_eq_intFloor (q : ℚ) : q.floor = ⌊q⌋ := by
  rw [Rat.floor_def', Rat.floor_def]

theorem rat_floor_eq_of {q : ℚ} {z : ℤ} (h1 : (z : ℚ) ≤ q) (h2 : q < z + 1) :
    q.floor = z := by
  rw [rat_floor_eq_intFloor]
  exact Int.floor_eq_iff.mpr ⟨h1, h2⟩

theorem pyint_eq_of_nonneg {q : ℚ} {z : ℤ} (h0 : 0 ≤ q) (h1 : (z : ℚ) ≤ q)
    (h2 : q < z + 1) : pyint q = z := by
  rw [pyint, if_pos h0]
  exact rat_floor_eq_of h1 h2

theorem quantize_eq {f : ℚ} {z : ℤ} (h0 : 0 ≤ 31 * f) (h1 : (z : ℚ) ≤ 31 * f)
    (h2 : 31 * f < z + 1) : quantize f = (z % 32).toNat := by
  rw [quantize, pyint_eq_of_nonneg h0 h1 h2]

theorem pyround_eq_down {x : ℚ} {z : ℤ} (hfl : x.floor = z) (h : x - z < 1/2) :
    pyround x = z := by
  rw [pyround, hfl, if_pos h]

theorem pyround_eq_up {x : ℚ} {z : ℤ} (hfl : x.floor = z) (h : 1/2 < x - z) :
    pyround x = z + 1 := by
  rw [pyround, hfl, if_neg (by linarith), if_pos h]

theorem pyround_eq_tie_odd {x : ℚ} {z : ℤ} (hfl : x.floor = z)
    (h : x - z = 1/2) (hodd : ¬ (2 ∣ z)) : pyround x = z + 1 := by
  rw [pyround, hfl, if_neg (by rw [h]; exact lt_irrefl _),
    if_neg (by rw [h]; exact lt_irrefl _), if_neg hodd]

theorem round3_eq {x : ℚ} {z : ℤ} (h : pyround (1000 * x) = z) :
    round3 x = (z : ℚ) / 1000 := by
  rw [round3, h]

theorem quantize_half : quantize (1/2) = 15 := by
  rw [quantize_eq (z := 15) (by norm_num) (by norm_num) (by norm_num)]
  rfl

theorem quantize_one : quantize 1 = 31 := by
  rw [quantize_eq (z := 31) (by norm_num) (by norm_num) (by norm_num)]
  rfl

theorem round3_fifteen : round3 ((15 : ℚ) / 31) = 484 / 1000 := by
  have h2 : pyround ((1000 : ℚ) * (15 / 31)) = 483 + 1 := by
    rw [show (1000 : ℚ) * (15 / 31) = 15000 / 31 by norm_num]
    exact pyround_eq_up (z := 483)
      (rat_floor_eq_of (by norm_num) (by norm_num)) (by norm_num)
  rw [round3_eq h2]
  norm_num

theorem round3_sixteen : round3 ((16 : ℚ) / 31) = 516 / 1000 := by
  have h2 : pyround ((1000 : ℚ) * (16 / 31)) = 516 := by
    rw [show (1000 : ℚ) * (16 / 31) = 16000 / 31 by norm_num]
    exact pyround_eq_down (z := 516)
      (rat_floor_eq_of (by norm_num) (by norm_num)) (by norm_num)
  rw [round3_eq h2]
  norm_num

/-! ### Index resolution -/

theorem resolveIdx_of_nonneg {x : ℤ} (h0 : 0 ≤ x) (h : x < (NUM_PIXELS : ℤ)) :
    resolveIdx x = some x.toNat := by
  rw [resolveIdx, if_pos ⟨h0, h⟩]

theorem resolveIdx_of_neg {x : ℤ} (h0 : -(NUM_PIXELS : ℤ) ≤ x) (h : x < 0) :
    resolveIdx x = some (x + NUM_PIXELS).toNat := by
  rw [resolveIdx, if_neg (by omega), if_pos ⟨h0, h⟩]

theorem resolveIdx_of_out {x : ℤ} (h : x < -(NUM_PIXELS : ℤ) ∨ (NUM_PIXELS : ℤ) ≤ x) :
    resolveIdx x = none := by
  rw [resolveIdx, if_neg (by omega), if_neg (by omega)]

theorem resolveIdx_lt {x : ℤ} {i : ℕ} (h : resolveIdx x = some i) :
    i < NUM_PIXELS := by
  rw [resolveIdx] at h
  split_ifs at h with h1 h2 <;> simp only [Option.some.injEq] at h <;> omega

/-! ### `set_pixel` / `get_pixel` -/

theorem set_pixel_err {st : BufState} {x : ℤ} (r g b : ℤ) (br : Option ℚ)
    (hres : resolveIdx x = none) :
    set_pixel st x r g b br = .error .indexError := by
  rw [set_pixel, hres]

theorem set_pixel_ok {st : BufState} {x : ℤ} {i : ℕ} (r g b : ℤ) (br : Option ℚ)
    (hres : resolveIdx x = some i) :
    set_pixel st x r g b br = .ok
      { slots := st.slots.set i st.nextAddr
        heap := Function.update st.heap st.nextAddr
          ⟨pymask8 r, pymask8 g, pymask8 b,
            match br with
            | none => (slotPixel st i).brightness
            | some f => quantize f⟩
        nextAddr := st.nextAddr + 1 } := by
  rw [set_pixel, hres]

theorem get_pixel_ok {st : BufState} {x : ℤ} {i : ℕ} (hres : resolveIdx x = some i) :
    get_pixel st x = .ok ((slotPixel st i).r, (slotPixel st i).g, (slotPixel st i).b,
      round3 (((slotPixel st i).brightness : ℚ) / 31)) := by
  rw [get_pixel, hres]

theorem slotPixel_after_set {st : BufState} {i : ℕ} (hi : i < st.slots.length)
    (p : Pixel) :
    slotPixel { slots := st.slots.set i st.nextAddr
                heap := Function.update st.heap st.nextAddr p
                nextAddr := st.nextAddr + 1 } i = p := by
  rw [slotPixel]
  simp only
  rw [List.getD_eq_getElem?_getD, List.getElem?_set_eq_of_lt _ hi,
    Option.getD_some, Function.update_same]

theorem set_get_some {st : BufState} {x y : ℤ} {i : ℕ} (r g b : ℤ) (f : ℚ)
    (hx : resolveIdx x = some i) (hy : resolveIdx y = some i)
    (hi : i < st.slots.length) :
    ∃ st', set_pixel st x r g b (some f) = .ok st' ∧
      get_pixel st' y = .ok (pymask8 r, pymask8 g, pymask8 b,
        round3 ((quantize f : ℚ) / 31)) := by
  refine ⟨_, set_pixel_ok r g b (some f) hx, ?_⟩
  rw [get_pixel_ok hy, slotPixel_after_set hi]

theorem set_get_none {st : BufState} {x y : ℤ} {i : ℕ} (r g b : ℤ)
    (hx : resolveIdx x = some i) (hy : resolveIdx y = some i)
    (hi : i < st.slots.length) :
    ∃ st', set_pixel st x r g b none = .ok st' ∧
      get_pixel st' y = .ok (pymask8 r, pymask8 g, pymask8 b,
        round3 (((slotPixel st i).brightness : ℚ) / 31)) := by
  refine ⟨_, set_pixel_ok r g b none hx, ?_⟩
  rw [get_pixel_ok hy, slotPixel_after_set hi]

theorem set_pixel_frame {st st' : BufState} {x y : ℤ} {i j : ℕ} (r g b : ℤ)
    (br : Option ℚ) (hWF : WF st) (hx : resolveIdx x = some i)
    (hy : resolveIdx y = some j) (hij : j ≠ i)
    (hset : set_pixel st x r g b br = .ok st') :
    get_pixel st' y = get_pixel st y := by
  rw [set_pixel_ok r g b br hx] at hset
  cases hset
  have hj : j < st.slots.length := hWF.1 ▸ resolveIdx_lt hy
  have haddr : st.slots.getD j 0 = st.slots[j] := List.getD_eq_getElem st.slots 0 hj
  have hmem : st.slots[j] ∈ st.slots := List.getElem_mem hj
  have hne : st.slots.getD j 0 ≠ st.nextAddr := by
    rw [haddr]
    exact Nat.ne_of_lt (hWF.2 _ hmem)
  rw [get_pixel_ok hy, get_pixel_ok hy]
  have hsl : (st.slots.set i st.nextAddr).getD j 0 = st.slots.getD j 0 := by
    rw [List.getD_eq_getElem?_getD, List.getElem?_set_ne (fun h => hij h.symm),
      ← List.getD_eq_getElem?_getD]
  have hslot : slotPixel
      { slots := st.slots.set i st.nextAddr
        heap := Function.update st.heap st.nextAddr
          ⟨pymask8 r, pymask8 g, pymask8 b,
            match br with
            | none => (slotPixel st i).brightness
            | some f => quantize f⟩
        nextAddr := st.nextAddr + 1 } j = slotPixel st j := by
    show Function.update st.heap st.nextAddr _ ((st.slots.set i st.nextAddr).getD j 0)
      = slotPixel st j
    rw [hsl, Function.update_noteq hne]
    rfl
  rw [hslot]

/-! ### The in-place loops of `clear` and `set_brightness` -/

theorem foldl_update_apply (f : Pixel → Pixel) (hf : ∀ p, f (f p) = f p)
    (as : List ℕ) (h : ℕ → Pixel) (a : ℕ) :
    (as.foldl (fun acc x => Function.update acc x (f (acc x))) h) a
      = if a ∈ as then f (h a) else h a := by
  induction as generalizing h with
  | nil => simp
  | cons c cs ih =>
    rw [List.foldl_cons, ih]
    by_cases hac : a = c
    · subst hac
      rw [Function.update_same]
      by_cases hm : a ∈ cs
      · rw [if_pos hm, if_pos (List.mem_cons_self a cs), hf]
      · rw [if_neg hm, if_pos (List.mem_cons_self a cs)]
    · rw [Function.update_noteq hac]
      by_cases hm : a ∈ cs
      · rw [if_pos hm, if_pos (List.mem_cons_of_mem _ hm)]
      · rw [if_neg hm, if_neg (by simp [List.mem_cons, hac, hm])]

theorem clear_heap_apply (st : BufState) (a : ℕ) :
    (clear st).heap a =
      if a ∈ (List.range NUM_PIXELS).map (fun x => st.slots.getD x 0)
      then { st.heap a with r := 0, g := 0, b := 0 } else st.heap a := by
  rw [clear]
  simp only
  have h2 := foldl_update_apply (fun p => { p with r := 0, g := 0, b := 0 })
    (fun p => rfl) ((List.range NUM_PIXELS).map fun x => st.slots.getD x 0) st.heap a
  rw [List.foldl_map] at h2
  exact h2

theorem clear_slots (st : BufState) : (clear st).slots = st.slots := rfl

theorem slotPixel_clear {st : BufState} {j : ℕ} (hj : j < NUM_PIXELS) :
    slotPixel (clear st) j = { slotPixel st j with r := 0, g := 0, b := 0 } := by
  rw [slotPixel, slotPixel, clear_slots, clear_heap_apply,
    if_pos (List.mem_map_of_mem _ (List.mem_range.mpr hj))]

theorem set_brightness_err {st : BufState} {f : ℚ} (h : f < 0 ∨ 1 < f) :
    set_brightness st f = .error .valueError := by
  rw [set_brightness, if_pos h]

theorem set_brightness_heap_apply {st : BufState} {f : ℚ} {st' : BufState}
    (hset : set_brightness st f = .ok st') (a : ℕ) :
    st'.heap a =
      if a ∈ (List.range NUM_PIXELS).map (fun x => st.slots.getD x 0)
      then { st.heap a with brightness := quantize f } else st.heap a := by
  rw [set_brightness] at hset
  split_ifs at hset
  cases hset
  simp only
  have h2 := foldl_update_apply (fun p => { p with brightness := quantize f })
    (fun p => rfl) ((List.range NUM_PIXELS).map fun x => st.slots.getD x 0) st.heap a
  rw [List.foldl_map] at h2
  exact h2

theorem set_brightness_slots {st : BufState} {f : ℚ} {st' : BufState}
    (hset : set_brightness st f = .ok st') : st'.slots = st.slots := by
  rw [set_brightness] at hset
  split_ifs at hset
  cases hset
  rfl

theorem set_brightness_ok {st : BufState} {f : ℚ} (h0 : 0 ≤ f) (h1 : f ≤ 1) :
    ∃ st', set_brightness st f = .ok st' := by
  rw [set_brightness, if_neg (by push_neg; exact ⟨h0, h1⟩)]
  exact ⟨_, rfl⟩

theorem slotPixel_set_brightness {st : BufState} {f : ℚ} {st' : BufState}
    (hset : set_brightness st f = .ok st') {j : ℕ} (hj : j < NUM_PIXELS) :
    slotPixel st' j = { slotPixel st j with brightness := quantize f } := by
  rw [slotPixel, slotPixel, set_brightness_slots hset, set_brightness_heap_apply hset,
    if_pos (List.mem_map_of_mem _ (List.mem_range.mpr hj))]

/-! ### Wire-trace lemmas -/

theorem clkWrites_append (xs ys : List WireEvent) :
    clkWrites (xs ++ ys) = clkWrites xs ++ clkWrites ys :=
  List.filterMap_append ..

theorem datWrites_append (xs ys : List WireEvent) :
    datWrites (xs ++ ys) = datWrites xs ++ datWrites ys :=
  List.filterMap_append ..

theorem sleepCount_append (xs ys : List WireEvent) :
    sleepCount (xs ++ ys) = sleepCount xs + sleepCount ys :=
  List.countP_append ..

theorem clkWrites_cons_clk (b : Bool) (es : List WireEvent) :
    clkWrites (.clk b :: es) = b :: clkWrites es := rfl

theorem clkWrites_cons_dat (b : Bool) (es : List WireEvent) :
    clkWrites (.dat b :: es) = clkWrites es := rfl

theorem clkWrites_cons_sleep (es : List WireEvent) :
    clkWrites (.sleep :: es) = clkWrites es := rfl

theorem datWrites_cons_clk (b : Bool) (es : List WireEvent) :
    datWrites (.clk b :: es) = datWrites es := rfl

theorem datWrites_cons_dat (b : Bool) (es : List WireEvent) :
    datWrites (.dat b :: es) = b :: datWrites es := rfl

theorem datWrites_cons_sleep (es : List WireEvent) :
    datWrites (.sleep :: es) = datWrites es := rfl

theorem sleepCount_cons_clk (b : Bool) (es : List WireEvent) :
    sleepCount (.clk b :: es) = sleepCount es := by
  rw [sleepCount, sleepCount, List.countP_cons]
  rfl

theorem sleepCount_cons_dat (b : Bool) (es : List WireEvent) :
    sleepCount (.dat b :: es) = sleepCount es := by
  rw [sleepCount, sleepCount, List.countP_cons]
  rfl

theorem sleepCount_cons_sleep (es : List WireEvent) :
    sleepCount (.sleep :: es) = sleepCount es + 1 := by
  rw [sleepCount, sleepCount, List.countP_cons]
  rfl

theorem pulsePattern_add (m n : ℕ) :
    pulsePattern (m + n) = pulsePattern m ++ pulsePattern n := by
  rw [pulsePattern, pulsePattern, pulsePattern, List.replicate_add,
    List.flatten_append]

theorem clkWrites_pulseTrain (n : ℕ) :
    clkWrites (pulseTrain n) = pulsePattern n := by
  induction n with
  | zero => rfl
  | succ k ih =>
    rw [pulseTrain, clkWrites_cons_clk, clkWrites_cons_sleep, clkWrites_cons_clk,
      clkWrites_cons_sleep, ih, pulsePattern, pulsePattern, List.replicate_succ,
      List.flatten_cons]
    rfl

theorem sleepCount_pulseTrain (n : ℕ) :
    sleepCount (pulseTrain n) = 2 * n := by
  induction n with
  | zero => rfl
  | succ k ih =>
    rw [pulseTrain, sleepCount_cons_clk, sleepCount_cons_sleep, sleepCount_cons_clk,
      sleepCount_cons_sleep, ih]
    omega

theorem clkWrites_writeByteAux (k byte : ℕ) :
    clkWrites (writeByteAux k byte) = pulsePattern k := by
  induction k generalizing byte with
  | zero => rfl
  | succ m ih =>
    rw [writeByteAux, clkWrites_cons_dat, clkWrites_cons_clk, clkWrites_cons_sleep,
      clkWrites_cons_clk, clkWrites_cons_sleep, ih, pulsePattern, pulsePattern,
      List.replicate_succ, List.flatten_cons]
    rfl

theorem sleepCount_writeByteAux (k byte : ℕ) :
    sleepCount (writeByteAux k byte) = 2 * k := by
  induction k generalizing byte with
  | zero => rfl
  | succ m ih =>
    rw [writeByteAux, sleepCount_cons_dat, sleepCount_cons_clk, sleepCount_cons_sleep,
      sleepCount_cons_clk, sleepCount_cons_sleep, ih]
    omega

theorem datWrites_writeByteAux (k byte : ℕ) :
    datWrites (writeByteAux k byte)
      = (List.range k).map fun j => (byte <<< j) &&& 128 != 0 := by
  induction k generalizing byte with
  | zero => rfl
  | succ m ih =>
    rw [writeByteAux, datWrites_cons_dat, datWrites_cons_clk, datWrites_cons_sleep,
      datWrites_cons_clk, datWrites_cons_sleep, ih, List.range_succ_eq_map,
      List.map_cons, List.map_map]
    congr 1

theorem and128_testBit (x : ℕ) : (x &&& 128 != 0) = x.testBit 7 := by
  have h : x &&& 128 = (x.testBit 7).toNat * 128 := by
    have h2 := Nat.and_two_pow x 7
    norm_num at h2
    exact h2
  cases hx : x.testBit 7 <;> simp [h, hx]

theorem datWrites_write_byte (byte : ℕ) :
    datWrites (_write_byte byte) = msbBits byte := by
  rw [_write_byte, datWrites_writeByteAux, msbBits]
  apply List.map_congr_left
  intro j hj
  have hj8 : j < 8 := List.mem_range.mp hj
  rw [and128_testBit, Nat.testBit_shiftLeft]
  simp [Nat.lt_succ_iff.mp hj8]

theorem clkWrites_write_byte (byte : ℕ) :
    clkWrites (_write_byte byte) = pulsePattern 8 := by
  rw [_write_byte, clkWrites_writeByteAux]

theorem sleepCount_write_byte (byte : ℕ) :
    sleepCount (_write_byte byte) = 16 := by
  rw [_write_byte, sleepCount_writeByteAux]

theorem clkWrites_pixelEvents (p : Pixel) :
    clkWrites (pixelEvents p) = pulsePattern 32 := by
  rw [pixelEvents, pixelBytes]
  simp only [List.map_cons, List.map_nil, List.flatten_cons, List.flatten_nil,
    List.append_nil, clkWrites_append, clkWrites_write_byte]
  rw [← pulsePattern_add, ← pulsePattern_add, ← pulsePattern_add]

theorem sleepCount_pixelEvents (p : Pixel) :
    sleepCount (pixelEvents p) = 64 := by
  rw [pixelEvents, pixelBytes]
  simp only [List.map_cons, List.map_nil, List.flatten_cons, List.flatten_nil,
    List.append_nil, sleepCount_append, sleepCount_write_byte]

theorem datWrites_pixelEvents (p : Pixel) :
    datWrites (pixelEvents p) = ((pixelBytes p).map msbBits).flatten := by
  rw [pixelEvents, pixelBytes]
  simp only [List.map_cons, List.map_nil, List.flatten_cons, List.flatten_nil,
    List.append_nil, datWrites_append, datWrites_write_byte]

theorem clkWrites_flatten_pixels (ps : List Pixel) :
    clkWrites ((ps.map pixelEvents).flatten) = pulsePattern (ps.length * 32) := by
  induction ps with
  | nil => rfl
  | cons p pt ih =>
    rw [List.map_cons, List.flatten_cons, clkWrites_append, clkWrites_pixelEvents,
      ih, ← pulsePattern_add]
    congr 1
    simp only [List.length_cons]
    ring

theorem sleepCount_flatten_pixels (ps : List Pixel) :
    sleepCount ((ps.map pixelEvents).flatten) = ps.length * 64 := by
  induction ps with
  | nil => rfl
  | cons p pt ih =>
    rw [List.map_cons, List.flatten_cons, sleepCount_append, sleepCount_pixelEvents,
      ih, List.length_cons]
    ring

theorem clkWrites_transmit (ps : List Pixel) :
    clkWrites (transmit ps) = pulsePattern (32 + ps.length * 32 + 36) := by
  rw [transmit, clkWrites_append, clkWrites_append, _sof, _eof,
    clkWrites_cons_dat, clkWrites_cons_dat, clkWrites_pulseTrain,
    clkWrites_pulseTrain, clkWrites_flatten_pixels, ← pulsePattern_add,
    ← pulsePattern_add]

theorem sleepCount_transmit (ps : List Pixel) :
    sleepCount (transmit ps) = 2 * (32 + ps.length * 32 + 36) := by
  rw [transmit, sleepCount_append, sleepCount_append, _sof, _eof,
    sleepCount_cons_dat, sleepCount_cons_dat, sleepCount_pulseTrain,
    sleepCount_pulseTrain, sleepCount_flatten_pixels]
  ring

theorem claimWithRecovery_ok_counts {o : ℕ → Bool} {pin : ℕ}
    {l : List GpioAction} (h : claimWithRecovery o pin = .ok l) :
    l.count .openChip = 0 ∧ l.count .registerAtexit = 0 := by
  rw [claimWithRecovery] at h
  split_ifs at h <;> injection h with h2 <;> subst h2 <;> exact ⟨rfl, rfl⟩

theorem quantizeSpecC1_half : quantizeSpecC1 (1/2) = 16 := by
  have h : pyround ((31 : ℚ) * (1/2)) = 15 + 1 := by
    rw [show (31 : ℚ) * (1/2) = 31/2 by norm_num]
    exact pyround_eq_tie_odd (z := 15)
      (rat_floor_eq_of (by norm_num) (by norm_num)) (by norm_num) (by decide)
  rw [quantizeSpecC1, h]
  rfl

/-! ### Claims -/

/-- Claim C1 (amended): for every valid index `i`, integer channel inputs
and brightness fraction `br ∈ [0, 1]`, `set_pixel(i, r, g, b, br)` followed
by `get_pixel(i)` returns `(r & 0xFF, g & 0xFF, b & 0xFF, round(q/31, 3))`
where the stored brightness `q` is `int(31 * br)` — truncation, which on
`[0, 1]` is the floor — masked to 5 bits (the claim's `round(31 * br)` is
what fails; see the counterexample). -/
theorem claim_C1 (st : BufState) (x r g b : ℤ) (f : ℚ)
    (hlen : st.slots.length = NUM_PIXELS) (h0 : 0 ≤ x)
    (h8 : x < (NUM_PIXELS : ℤ)) (hf0 : 0 ≤ f) (hf1 : f ≤ 1) :
    ∃ st', set_pixel st x r g b (some f) = .ok st' ∧
      get_pixel st' x = .ok (pymask8 r, pymask8 g, pymask8 b,
        round3 ((quantize f : ℚ) / 31)) ∧
      (quantize f : ℤ) = ⌊(31 : ℚ) * f⌋ % 32 := by
  have hres : resolveIdx x = some x.toNat := resolveIdx_of_nonneg h0 h8
  have hN : NUM_PIXELS = 8 := rfl
  have hi : x.toNat < st.slots.length := by rw [hlen]; omega
  obtain ⟨st', hset, hget⟩ := set_get_some r g b f hres hres hi
  refine ⟨st', hset, hget, ?_⟩
  rw [quantize, pyint, if_pos (by positivity), rat_floor_eq_intFloor]
  exact Int.toNat_of_nonneg (Int.emod_nonneg _ (by norm_num))

/-- Witness for the amended C1 at index 0, channels 0, brightness 1/2. -/
theorem claim_C1_witness :
    initState.slots.length = NUM_PIXELS ∧ (0 : ℤ) ≤ 0 ∧
    (0 : ℤ) < (NUM_PIXELS : ℤ) ∧ (0 : ℚ) ≤ 1/2 ∧ (1/2 : ℚ) ≤ 1 ∧
    (∃ st', set_pixel initState 0 0 0 0 (some (1/2)) = .ok st' ∧
      get_pixel st' 0 = .ok (pymask8 0, pymask8 0, pymask8 0,
        round3 ((quantize (1/2) : ℚ) / 31)) ∧
      (quantize (1/2) : ℤ) = ⌊(31 : ℚ) * (1/2)⌋ % 32) :=
  ⟨by decide, by decide, by decide, by norm_num, by norm_num,
    claim_C1 initState 0 0 0 0 (1/2) (by decide) (by decide) (by decide)
      (by norm_num) (by norm_num)⟩

/-- Counterexample to C1 as stated: at `br = 0.5` the code stores
`int(31 * 0.5) = 15` while the claim's `round(31 * 0.5)` is 16, and the
reported brightness fractions differ (0.484 vs 0.516). -/
theorem claim_C1_counterexample :
    (0 : ℚ) ≤ 1/2 ∧ (1/2 : ℚ) ≤ 1 ∧
    quantize (1/2) = 15 ∧ quantizeSpecC1 (1/2) = 16 ∧
    ((set_pixel initState 0 0 0 0 (some (1/2))).toOption.bind
        fun st => (get_pixel st 0).toOption)
      = some (0, 0, 0, round3 ((15 : ℚ) / 31)) ∧
    ((set_pixel initState 0 0 0 0 (some (1/2))).toOption.bind
        fun st => (get_pixel st 0).toOption)
      ≠ some (0, 0, 0, round3 ((quantizeSpecC1 (1/2) : ℚ) / 31)) := by
  have hres : resolveIdx (0 : ℤ) = some 0 := by decide
  have hi0 : (0 : ℕ) < initState.slots.length := by decide
  obtain ⟨st', hset, hget⟩ := set_get_some 0 0 0 (1/2) hres hres hi0
  have hpipe : ((set_pixel initState 0 0 0 0 (some (1/2))).toOption.bind
      fun st => (get_pixel st 0).toOption)
      = some (0, 0, 0, round3 ((15 : ℚ) / 31)) := by
    rw [hset]
    show (get_pixel st' 0).toOption = _
    rw [hget]
    show some (pymask8 0, pymask8 0, pymask8 0, round3 ((quantize (1/2) : ℚ) / 31))
      = _
    rw [quantize_half]
    rfl
  have hdiff : round3 ((15 : ℚ) / 31) ≠ round3 ((16 : ℚ) / 31) := by
    rw [round3_fifteen, round3_sixteen]
    norm_num
  refine ⟨by norm_num, by norm_num, quantize_half, quantizeSpecC1_half, hpipe, ?_⟩
  rw [hpipe, quantizeSpecC1_half]
  intro hEq
  apply hdiff
  have h4 := (Prod.ext_iff.mp (Option.some_injective _ hEq)).2
  have h5 := (Prod.ext_iff.mp h4).2
  have h6 := (Prod.ext_iff.mp h5).2
  simpa using h6

/-- Claim C2 (amended): `set_pixel` raises `IndexError` exactly when the
index is outside `[-N, N)`; a negative index in `[-N, -1]` does not fail —
Python wraps it to slot `N + index`. -/
theorem claim_C2 (st : BufState) (x r g b : ℤ) (br : Option ℚ) :
    ((x < -(NUM_PIXELS : ℤ) ∨ (NUM_PIXELS : ℤ) ≤ x) →
      set_pixel st x r g b br = .error .indexError) ∧
    (-(NUM_PIXELS : ℤ) ≤ x → x < 0 →
      resolveIdx x = some (x + NUM_PIXELS).toNat ∧
      ∃ st', set_pixel st x r g b br = .ok st') := by
  constructor
  · intro h
    exact set_pixel_err r g b br (resolveIdx_of_out h)
  · intro h1 h2
    have hres := resolveIdx_of_neg h1 h2
    exact ⟨hres, _, set_pixel_ok r g b br hres⟩

/-- Witness for the amended C2: index 9 fails with `IndexError`; index −1
succeeds and addresses slot 7. -/
theorem claim_C2_witness :
    set_pixel initState 9 1 2 3 none = .error .indexError ∧
    (resolveIdx (-1) = some ((-1) + NUM_PIXELS : ℤ).toNat ∧
      ∃ st', set_pixel initState (-1) 1 2 3 none = .ok st') :=
  ⟨(claim_C2 initState 9 1 2 3 none).1 (by decide),
    (claim_C2 initState (-1) 1 2 3 none).2 (by decide) (by decide)⟩

/-- Counterexample to C2 as stated: `set_pixel(-1, 1, 2, 3)` succeeds —
the negative index wraps to slot 7, whose colors become (1, 2, 3) with the
default brightness kept. -/
theorem claim_C2_counterexample :
    ∃ st', set_pixel initState (-1) 1 2 3 none = .ok st' ∧
      get_pixel st' 7 = .ok (1, 2, 3, round3 ((7 : ℚ) / 31)) := by
  have hx : resolveIdx (-1) = some 7 := by decide
  have hy : resolveIdx 7 = some 7 := by decide
  have hi7 : (7 : ℕ) < initState.slots.length := by decide
  obtain ⟨st', hset, hget⟩ := set_get_none 1 2 3 hx hy hi7
  refine ⟨st', hset, ?_⟩
  rw [hget]
  rfl

/-- Claim C3: `set_brightness(f)` raises `ValueError` for `f` outside
`[0, 1]` before touching any pixel; for `f` in `[0, 1]` it overwrites the
stored 5-bit brightness of all N pixels with the quantized value and
leaves every pixel's color channels unchanged. -/
theorem claim_C3 (st : BufState) (f : ℚ) :
    ((f < 0 ∨ 1 < f) → set_brightness st f = .error .valueError) ∧
    (0 ≤ f → f ≤ 1 → ∃ st', set_brightness st f = .ok st' ∧
      ∀ y : ℤ, 0 ≤ y → y < (NUM_PIXELS : ℤ) →
        ∃ r₀ g₀ b₀ q₀, get_pixel st y = .ok (r₀, g₀, b₀, q₀) ∧
          get_pixel st' y = .ok (r₀, g₀, b₀,
            round3 ((quantize f : ℚ) / 31))) := by
  refine ⟨fun h => set_brightness_err h, fun h0 h1 => ?_⟩
  obtain ⟨st', hset⟩ := set_brightness_ok h0 h1
  refine ⟨st', hset, fun y hy0 hy8 => ?_⟩
  have hN : NUM_PIXELS = 8 := rfl
  have hres : resolveIdx y = some y.toNat := resolveIdx_of_nonneg hy0 hy8
  have hj : y.toNat < NUM_PIXELS := by omega
  refine ⟨_, _, _, _, get_pixel_ok hres, ?_⟩
  rw [get_pixel_ok hres, slotPixel_set_brightness hset hj]

/-- Witness for C3: `set_brightness(2)` fails; `set_brightness(1/2)`
succeeds on the initial buffer. -/
theorem claim_C3_witness :
    set_brightness initState 2 = .error .valueError ∧
    (∃ st', set_brightness initState (1/2) = .ok st' ∧
      ∀ y : ℤ, 0 ≤ y → y < (NUM_PIXELS : ℤ) →
        ∃ r₀ g₀ b₀ q₀, get_pixel initState y = .ok (r₀, g₀, b₀, q₀) ∧
          get_pixel st' y = .ok (r₀, g₀, b₀,
            round3 ((quantize (1/2) : ℚ) / 31))) :=
  ⟨(claim_C3 initState 2).1 (by norm_num),
    (claim_C3 initState (1/2)).2 (by norm_num) (by norm_num)⟩

/-- Claim C4: `clear()` zeroes the color channels of all N pixels and
leaves every stored brightness (hence every reported brightness fraction)
exactly as it was. -/
theorem claim_C4 (st : BufState) (y : ℤ) (hy0 : 0 ≤ y)
    (hy8 : y < (NUM_PIXELS : ℤ)) :
    ∃ r₀ g₀ b₀ q₀, get_pixel st y = .ok (r₀, g₀, b₀, q₀) ∧
      get_pixel (clear st) y = .ok (0, 0, 0, q₀) := by
  have hres := resolveIdx_of_nonneg hy0 hy8
  have hN : NUM_PIXELS = 8 := rfl
  have hj : y.toNat < NUM_PIXELS := by omega
  refine ⟨_, _, _, _, get_pixel_ok hres, ?_⟩
  rw [get_pixel_ok hres, slotPixel_clear hj]

/-- Witness for C4 at slot 0 of the initial buffer. -/
theorem claim_C4_witness :
    ∃ r₀ g₀ b₀ q₀, get_pixel initState 0 = .ok (r₀, g₀, b₀, q₀) ∧
      get_pixel (clear initState) 0 = .ok (0, 0, 0, q₀) :=
  claim_C4 initState 0 (by decide) (by decide)

/-- Claim C5: `set_pixel(i, r, g, b)` with the brightness argument
omitted updates the color channels and keeps the pixel's stored
brightness (and hence its reported fraction) equal to its value just
before the call. -/
theorem claim_C5 (st : BufState) (x r g b : ℤ)
    (hlen : st.slots.length = NUM_PIXELS) (h0 : 0 ≤ x)
    (h8 : x < (NUM_PIXELS : ℤ)) :
    ∃ st' r₀ g₀ b₀ q₀, get_pixel st x = .ok (r₀, g₀, b₀, q₀) ∧
      set_pixel st x r g b none = .ok st' ∧
      get_pixel st' x = .ok (pymask8 r, pymask8 g, pymask8 b, q₀) ∧
      (slotPixel st' x.toNat).brightness = (slotPixel st x.toNat).brightness := by
  have hres := resolveIdx_of_nonneg h0 h8
  have hN : NUM_PIXELS = 8 := rfl
  have hi : x.toNat < st.slots.length := by rw [hlen]; omega
  obtain ⟨st', hset, hget⟩ := set_get_none r g b hres hres hi
  have h2 := @set_pixel_ok st x x.toNat r g b none hres
  rw [hset] at h2
  injection h2 with h3
  subst h3
  refine ⟨_, _, _, _, _, get_pixel_ok hres, hset, hget, ?_⟩
  rw [slotPixel_after_set hi]

/-- Witness for C5 at slot 0 of the initial buffer. -/
theorem claim_C5_witness :
    ∃ st' r₀ g₀ b₀ q₀, get_pixel initState 0 = .ok (r₀, g₀, b₀, q₀) ∧
      set_pixel initState 0 10 20 30 none = .ok st' ∧
      get_pixel st' 0 = .ok (pymask8 10, pymask8 20, pymask8 30, q₀) ∧
      (slotPixel st' (0 : ℤ).toNat).brightness
        = (slotPixel initState (0 : ℤ).toNat).brightness :=
  claim_C5 initState 0 10 20 30 (by decide) (by decide) (by decide)

/-- Claim C6: one `show()` transmission produces exactly
`32 + N*32 + 36` clock pulses — the 32-pulse start frame, 8 pulses per
byte for the 4 bytes of each pixel in buffer order, the 36-pulse end
frame — the clock writes forming exactly that many high-then-low pairs,
with one fixed half-cycle delay after every clock edge. -/
theorem claim_C6 (oDat oClk : ℕ → Bool) (gpio_setup : Bool) (ps : List Pixel)
    (out : ShowOutcome) (h : show' oDat oClk gpio_setup ps = .ok out) :
    clkWrites out.wire = pulsePattern (32 + ps.length * 32 + 36) ∧
    sleepCount out.wire = 2 * (32 + ps.length * 32 + 36) := by
  have hw : out.wire = transmit ps := by
    rw [show'] at h
    split_ifs at h
    · injection h with h2
      rw [← h2]
    · cases hI : initGpio oDat oClk with
      | error e =>
        rw [hI] at h
        cases h
      | ok acts =>
        rw [hI] at h
        injection h with h2
        rw [← h2]
  rw [hw, clkWrites_transmit, sleepCount_transmit]
  exact ⟨rfl, rfl⟩

/-- Witness for C6: an already-initialized `show()` on the empty buffer. -/
theorem claim_C6_witness :
    clkWrites (ShowOutcome.mk true [] (transmit [])).wire
      = pulsePattern (32 + ([] : List Pixel).length * 32 + 36) ∧
    sleepCount (ShowOutcome.mk true [] (transmit [])).wire
      = 2 * (32 + ([] : List Pixel).length * 32 + 36) :=
  claim_C6 (fun _ => true) (fun _ => true) true [] ⟨true, [], transmit []⟩ rfl

/-- Claim C7: the four bytes emitted for a pixel are, in order,
`0b11100000 | brightness`, then blue, green, red, each byte emitted most
significant bit first; for the pixel stored by
`set_pixel(0, 10, 20, 30, 1.0)` the bytes are `0b11111111`, 30, 20, 10. -/
theorem claim_C7 :
    (∀ p : Pixel,
      datWrites (pixelEvents p) = ((pixelBytes p).map msbBits).flatten) ∧
    (∀ p : Pixel, pixelBytes p = [224 ||| p.brightness, p.b, p.g, p.r]) ∧
    ((set_pixel initState 0 10 20 30 (some 1)).toOption.map
        fun st => wireBytes st 0)
      = some [255, 30, 20, 10] := by
  refine ⟨datWrites_pixelEvents, fun p => rfl, ?_⟩
  have hres : resolveIdx (0 : ℤ) = some 0 := by decide
  rw [set_pixel_ok 10 20 30 (some 1) hres]
  show some (pixelBytes ⟨pymask8 10, pymask8 20, pymask8 30, quantize 1⟩)
    = some [255, 30, 20, 10]
  rw [quantize_one]
  rfl

/-- Claim C8: a failed pin claim is retried exactly once after a forced
release; the outcome depends only on the first two claim attempts (so
there is no further retry), and if the single retry also fails (on either
pin) the error propagates out of `show()`. -/
theorem claim_C8 (o : ℕ → Bool) (pin : ℕ) :
    (o 0 = true → claimWithRecovery o pin = .ok [.claimOutput pin]) ∧
    (o 0 = false → o 1 = true → claimWithRecovery o pin
      = .ok [.claimOutput pin, .free pin, .claimOutput pin]) ∧
    (o 0 = false → o 1 = false → claimWithRecovery o pin = .error ()) ∧
    (∀ o2 : ℕ → Bool, o2 0 = o 0 → o2 1 = o 1 →
      claimWithRecovery o2 pin = claimWithRecovery o pin) ∧
    (∀ oD oC : ℕ → Bool, ∀ ps : List Pixel,
      (claimWithRecovery oD DAT = .error () ∨
        claimWithRecovery oC CLK = .error ()) →
      show' oD oC false ps = .error ()) := by
  refine ⟨?_, ?_, ?_, ?_, ?_⟩
  · intro h
    rw [claimWithRecovery, if_pos h]
  · intro h0 h1
    rw [claimWithRecovery, if_neg (by simp [h0]), if_pos h1]
  · intro h0 h1
    rw [claimWithRecovery, if_neg (by simp [h0]), if_neg (by simp [h1])]
  · intro o2 h0 h1
    rw [claimWithRecovery, claimWithRecovery, h0, h1]
  · intro oD oC ps h
    have hIG : initGpio oD oC = .error () := by
      rw [initGpio]
      rcases h with h | h
      · rw [h]
      · cases hD : claimWithRecovery oD DAT with
        | error e => rfl
        | ok a => rw [h]
    have hfalse : show' oD oC false ps
        = (match initGpio oD oC with
          | .error e => (.error e : Except Unit ShowOutcome)
          | .ok acts => .ok ⟨true, acts, transmit ps⟩) := rfl
    rw [hfalse, hIG]

/-- Witness for C8: fail-then-succeed, fail-twice, and the propagation of
a double failure out of `show()`. -/
theorem claim_C8_witness :
    claimWithRecovery (fun _ => true) 23 = .ok [.claimOutput 23] ∧
    claimWithRecovery (fun n => n == 1) 23
      = .ok [.claimOutput 23, .free 23, .claimOutput 23] ∧
    claimWithRecovery (fun _ => false) 23 = .error () ∧
    show' (fun _ => false) (fun _ => true) false [] = .error () := by
  have hA := (claim_C8 (fun _ => true) 23).1 rfl
  have hB := (claim_C8 (fun n => n == 1) 23).2.1 rfl rfl
  have hC := (claim_C8 (fun _ => false) 23).2.2.1 rfl rfl
  have hE := (claim_C8 (fun _ => false) 23).2.2.2.2 (fun _ => false)
    (fun _ => true) [] (Or.inl hC)
  exact ⟨hA, hB, hC, hE⟩

/-- Claim C9: `show()` performs the chip-resolution/claim/atexit setup
exactly once — on the first call, when `_gpio_setup` is still false —
and every later call skips it, so two consecutive calls give one
initialization and two full transmissions. -/
theorem claim_C9 (oD oC : ℕ → Bool) (ps qs : List Pixel)
    (acts : List GpioAction) (h : initGpio oD oC = .ok acts) :
    show' oD oC false ps = .ok ⟨true, acts, transmit ps⟩ ∧
    show' oD oC true qs = .ok ⟨true, [], transmit qs⟩ ∧
    acts.count .openChip = 1 ∧ acts.count .registerAtexit = 1 := by
  refine ⟨?_, rfl, ?_⟩
  · have hfalse : show' oD oC false ps
        = (match initGpio oD oC with
          | .error e => (.error e : Except Unit ShowOutcome)
          | .ok a => .ok ⟨true, a, transmit ps⟩) := rfl
    rw [hfalse, h]
  · rw [initGpio] at h
    cases hD : claimWithRecovery oD DAT with
    | error e =>
      rw [hD] at h
      cases h
    | ok a =>
      rw [hD] at h
      cases hC : claimWithRecovery oC CLK with
      | error e =>
        rw [hC] at h
        cases h
      | ok b =>
        rw [hC] at h
        injection h with h2
        subst h2
        obtain ⟨ha1, ha2⟩ := claimWithRecovery_ok_counts hD
        obtain ⟨hb1, hb2⟩ := claimWithRecovery_ok_counts hC
        constructor
        · simp [List.count_cons, List.count_append, ha1, ha2, hb1, hb2]
        · simp [List.count_cons, List.count_append, ha1, ha2, hb1, hb2]

/-- Witness for C9: both claims succeed at once; the first call performs
the whole setup, the second skips it. -/
theorem claim_C9_witness :
    show' (fun _ => true) (fun _ => true) false []
      = .ok ⟨true, [.openChip, .claimOutput DAT, .claimOutput CLK,
          .registerAtexit], transmit []⟩ ∧
    show' (fun _ => true) (fun _ => true) true [⟨1, 2, 3, 4⟩]
      = .ok ⟨true, [], transmit [⟨1, 2, 3, 4⟩]⟩ ∧
    [GpioAction.openChip, .claimOutput DAT, .claimOutput CLK,
      .registerAtexit].count .openChip = 1 ∧
    [GpioAction.openChip, .claimOutput DAT, .claimOutput CLK,
      .registerAtexit].count .registerAtexit = 1 :=
  claim_C9 (fun _ => true) (fun _ => true) [] [⟨1, 2, 3, 4⟩]
    [.openChip, .claimOutput DAT, .claimOutput CLK, .registerAtexit] rfl

/-- Claim C10: `set_pixel` on slot `i` does not change what `get_pixel`
observes at any other valid slot `j` — even from the initial state, whose
eight slots all reference the single shared list at address 0 — because
the assignment rebinds slot `i` to a freshly allocated list instead of
mutating the shared one. -/
theorem claim_C10 :
    (∀ (st st' : BufState) (x y r g b : ℤ) (br : Option ℚ), WF st →
      0 ≤ x → x < (NUM_PIXELS : ℤ) → 0 ≤ y → y < (NUM_PIXELS : ℤ) →
      y ≠ x → set_pixel st x r g b br = .ok st' →
      get_pixel st' y = get_pixel st y) ∧
    initState.slots = List.replicate NUM_PIXELS 0 ∧ WF initState := by
  refine ⟨?_, rfl, by decide⟩
  intro st st' x y r g b br hWF hx0 hx8 hy0 hy8 hyx hset
  have hresx := resolveIdx_of_nonneg hx0 hx8
  have hresy := resolveIdx_of_nonneg hy0 hy8
  have hij : y.toNat ≠ x.toNat := by omega
  exact set_pixel_frame r g b br hWF hresx hresy hij hset

/-- Witness for C10: writing slot 0 of the (fully aliased) initial
buffer leaves the observation of slot 1 unchanged. -/
theorem claim_C10_witness :
    ∃ st', set_pixel initState 0 9 9 9 none = .ok st' ∧
      get_pixel st' 1 = get_pixel initState 1 := by
  have hres : resolveIdx (0 : ℤ) = some 0 := by decide
  refine ⟨_, set_pixel_ok 9 9 9 none hres, ?_⟩
  exact claim_C10.1 initState _ 0 1 9 9 9 none (by decide) (by decide)
    (by decide) (by decide) (by decide) (by decide)
    (set_pixel_ok 9 9 9 none hres)

end Blinkt
